import Mathlib

/-!
Shallow embedding of the `alloc-counter` crate (src/lib.rs).

Per-thread state (the two `thread_local!` cells `COUNTERS` and `MODE`) is
modelled as an explicit state record `TL` threaded through every operation.
A guarded "unit of work" (the closures passed to `count_alloc` / `guard_fn` /
`allow_alloc` / `deny_alloc` / `forbid_alloc`) is modelled by the deep
embedding `Work`: it can perform raw allocator calls, return a value, panic
on its own, sequence, and open nested guard scopes.  Panics are modelled by
`Except Failure`; unwinding runs the `Guard` drops, which the interpreter
performs explicitly on the error paths, exactly where Rust would run them.
-/

namespace AllocCounterModel

/-- `Counters`: the `(allocations, reallocations, deallocations)` triple
(`pub type Counters = (usize, usize, usize)`). -/
abbrev Counters := Nat × Nat × Nat

/-- Componentwise addition of counter triples. -/
def addC (c d : Counters) : Counters :=
  (c.1 + d.1, c.2.1 + d.2.1, c.2.2 + d.2.2)

/-- Componentwise (truncated) subtraction of counter triples; this is the
`(a2 - a1, r2 - r1, d2 - d1)` computation done by `count_alloc`. -/
def subC (c d : Counters) : Counters :=
  (c.1 - d.1, c.2.1 - d.2.1, c.2.2 - d.2.2)

/-- The `AllocMode` enum. -/
inductive AllocMode where
  | Ignore : AllocMode
  | Count : AllocMode
  | CountAll : AllocMode
deriving DecidableEq, Repr

/-- The per-thread state: the `COUNTERS` cell and the `MODE` cell. -/
structure TL where
  counters : Counters
  mode : AllocMode
deriving DecidableEq, Repr

/-- The three allocator primitives a unit of work can invoke. -/
inductive Act where
  | alloc : Act
  | realloc : Act
  | dealloc : Act
deriving DecidableEq, Repr

/-- The counter increment contributed by one allocator call when the mode
says it is counted. -/
def actUnit : Act → Counters
  | .alloc => (1, 0, 0)
  | .realloc => (0, 1, 0)
  | .dealloc => (0, 0, 1)

/-- How a panic is identified once it is modelled as a value: either a panic
raised by the unit of work itself (with an opaque payload code), or the
`panic!("allocations: {}, reallocations: {}, deallocations: {}", ..)` raised
by `guard_fn` / `guard_future`, carrying the three counts. -/
inductive Failure where
  | userFailure : Nat → Failure
  | allocViolation : Nat → Nat → Nat → Failure
deriving DecidableEq, Repr

/-- `AllocCounter::alloc`: if the current mode is not `Ignore`, bump the
allocation counter by 1, then delegate to the backing allocator and return
its result verbatim (`none` models a null return). -/
def AllocCounter.alloc (backing : Nat → Option Nat) (layout : Nat) (s : TL) :
    Option Nat × TL :=
  let s' := if s.mode ≠ AllocMode.Ignore then
    { s with counters := (s.counters.1 + 1, s.counters.2.1, s.counters.2.2) }
  else s
  (backing layout, s')

/-- `AllocCounter::realloc`: if the current mode is not `Ignore`, bump the
reallocation counter by 1, then delegate and return the result verbatim. -/
def AllocCounter.realloc (backing : Nat → Nat → Nat → Option Nat)
    (ptr layout newSize : Nat) (s : TL) : Option Nat × TL :=
  let s' := if s.mode ≠ AllocMode.Ignore then
    { s with counters := (s.counters.1, s.counters.2.1 + 1, s.counters.2.2) }
  else s
  (backing ptr layout newSize, s')

/-- `AllocCounter::dealloc`: if the current mode is not `Ignore`, bump the
deallocation counter by 1, then delegate. -/
def AllocCounter.dealloc (backing : Nat → Nat → Unit) (ptr layout : Nat)
    (s : TL) : Unit × TL :=
  let s' := if s.mode ≠ AllocMode.Ignore then
    { s with counters := (s.counters.1, s.counters.2.1, s.counters.2.2 + 1) }
  else s
  (backing ptr layout, s')

/-- The state effect of one allocator call made by a unit of work, routed
through the `AllocCounter` primitives (with a trivially succeeding backing
allocator, whose reply does not influence the counters). -/
def countEvent : Act → TL → TL
  | .alloc, s => (AllocCounter.alloc (fun _ => some 1) 0 s).2
  | .realloc, s => (AllocCounter.realloc (fun _ _ _ => some 1) 0 0 0 s).2
  | .dealloc, s => (AllocCounter.dealloc (fun _ _ => ()) 0 0 s).2

/-- `Guard::new(mode)`: if the current mode is not `CountAll`, replace it by
`mode` and record the previous mode; otherwise leave it at `CountAll` and
record `CountAll`.  Returns `(recorded mode to restore, new state)`. -/
def Guard.new (mode : AllocMode) (s : TL) : AllocMode × TL :=
  if s.mode ≠ AllocMode.CountAll then (s.mode, { s with mode := mode })
  else (AllocMode.CountAll, s)

/-- `Guard::drop`: unconditionally write the recorded mode back. -/
def Guard.drop (saved : AllocMode) (s : TL) : TL :=
  { s with mode := saved }

/-- A unit of work: return a value, call an allocator primitive, panic with
a payload, sequence two works (value of the second), or run a work inside a
nested `guard_fn` scope with a requested mode. -/
inductive Work where
  | ret : Nat → Work
  | act : Act → Work
  | fail : Nat → Work
  | seq : Work → Work → Work
  | scope : AllocMode → Work → Work
deriving DecidableEq, Repr

/-- The interpreter for a unit of work. The `scope` case is `guard_fn`
inlined: construct a `Guard`, run `count_alloc` around the body, panic if the
requested mode is not `Ignore` and the delta is non-zero, and drop the guard
on every exit path (normal return, violation panic, and propagation of a
panic from the body). -/
def run : Work → TL → Except Failure Nat × TL
  | .ret v, s => (.ok v, s)
  | .act a, s => (.ok 0, countEvent a s)
  | .fail c, s => (.error (.userFailure c), s)
  | .seq w₁ w₂, s =>
    match run w₁ s with
    | (.ok _, s₁) => run w₂ s₁
    | (.error e, s₁) => (.error e, s₁)
  | .scope m w, s =>
    let g := Guard.new m s
    let c₁ := g.2.counters
    match run w g.2 with
    | (.ok v, s₂) =>
      let d := subC s₂.counters c₁
      if m ≠ AllocMode.Ignore ∧ d ≠ ((0, 0, 0) : Counters) then
        (.error (.allocViolation d.1 d.2.1 d.2.2), Guard.drop g.1 s₂)
      else
        (.ok v, Guard.drop g.1 s₂)
    | (.error e, s₂) => (.error e, Guard.drop g.1 s₂)

/-- `count_alloc`, generic over the guarded computation (in Rust it is
generic over the closure): snapshot the counters, run the computation,
snapshot again, and return `(after − before, result)`.  A panic in the
computation propagates without a reading being produced. -/
def count_alloc_fn {α : Type} (f : TL → Except Failure α × TL) (s : TL) :
    Except Failure (Counters × α) × TL :=
  let c₁ := s.counters
  match f s with
  | (.ok v, s₂) => (.ok (subC s₂.counters c₁, v), s₂)
  | (.error e, s₂) => (.error e, s₂)

/-- `count_alloc` applied to a unit of work. -/
def count_alloc (w : Work) (s : TL) : Except Failure (Counters × Nat) × TL :=
  count_alloc_fn (run w) s

/-- `guard_fn(mode, f)`: install a `Guard`, measure `f` with `count_alloc`,
panic (carrying the three counts) when the requested mode is not `Ignore`
and the measured delta is non-zero, and restore the recorded mode on every
exit path. -/
def guard_fn (m : AllocMode) (w : Work) (s : TL) : Except Failure Nat × TL :=
  let g := Guard.new m s
  match count_alloc w g.2 with
  | (.ok (d, v), s₂) =>
    if m ≠ AllocMode.Ignore ∧ d ≠ ((0, 0, 0) : Counters) then
      (.error (.allocViolation d.1 d.2.1 d.2.2), Guard.drop g.1 s₂)
    else
      (.ok v, Guard.drop g.1 s₂)
  | (.error e, s₂) => (.error e, Guard.drop g.1 s₂)

/-- `allow_alloc(f) = guard_fn(AllocMode::Ignore, f)`. -/
def allow_alloc (w : Work) (s : TL) : Except Failure Nat × TL :=
  guard_fn AllocMode.Ignore w s

/-- `deny_alloc(f) = guard_fn(AllocMode::Count, f)`. -/
def deny_alloc (w : Work) (s : TL) : Except Failure Nat × TL :=
  guard_fn AllocMode.Count w s

/-- `forbid_alloc(f) = guard_fn(AllocMode::CountAll, f)`. -/
def forbid_alloc (w : Work) (s : TL) : Except Failure Nat × TL :=
  guard_fn AllocMode.CountAll w s

/-! ### The asynchronous side -/

/-- `Poll`: either a final result or a suspension. -/
inductive Poll (α : Type) where
  | Ready : α → Poll α
  | Pending : Poll α
deriving DecidableEq, Repr

/-- A wrapped asynchronous computation, as a resumption-step machine: each
`pend` step runs a unit of work and suspends; the `done` step runs a unit of
work and completes with its value. -/
inductive Fut where
  | done : Work → Fut
  | pend : Work → Fut → Fut
deriving DecidableEq, Repr

/-- One resumption step of the wrapped computation: run the current step's
work; a panic inside the step propagates out of `poll`. -/
def Fut.poll : Fut → TL → Except Failure (Poll Nat × Fut) × TL
  | .done w, s =>
    match run w s with
    | (.ok v, s') => (.ok (.Ready v, .done w), s')
    | (.error e, s') => (.error e, s')
  | .pend w rest, s =>
    match run w s with
    | (.ok _, s') => (.ok (.Pending, rest), s')
    | (.error e, s') => (.error e, s')

/-- The `AsyncGuard` future wrapper: a running `counts` total plus the
wrapped future. -/
structure AsyncGuard where
  counts : Counters
  future : Fut
deriving DecidableEq, Repr

/-- `count_alloc_future(future)`: wrap the future with a zeroed running
total (`counts: Default::default()`). -/
def count_alloc_future (f : Fut) : AsyncGuard :=
  { counts := (0, 0, 0), future := f }

/-- `AsyncGuard::poll`: measure `count_alloc` around exactly one resumption
step of the inner future, add the step's delta into the running total, and
on `Ready` return `(running total, result)`. -/
def AsyncGuard.poll (g : AsyncGuard) (s : TL) :
    Except Failure (Poll (Counters × Nat) × AsyncGuard) × TL :=
  match count_alloc_fn (Fut.poll g.future) s with
  | (.ok (d, (x, f')), s') =>
    let counts : Counters :=
      (g.counts.1 + d.1, g.counts.2.1 + d.2.1, g.counts.2.2 + d.2.2)
    match x with
    | .Ready v => (.ok (.Ready (counts, v), { counts := counts, future := f' }), s')
    | .Pending => (.ok (.Pending, { counts := counts, future := f' }), s')
  | (.error e, s') => (.error e, s')

/-- The state machine of the `async fn guard_future(mode, f)`: the requested
mode, the guard's recorded mode once the first poll has created the `Guard`
(`none` before that), and the `AsyncGuard` being awaited. -/
structure GuardFuture where
  mode : AllocMode
  saved : Option AllocMode
  inner : AsyncGuard
deriving DecidableEq, Repr

/-- `guard_future(mode, f)` before its first poll. -/
def guard_future (m : AllocMode) (f : Fut) : GuardFuture :=
  { mode := m, saved := none, inner := count_alloc_future f }

/-- One poll of `guard_future`'s state machine: the first poll runs
`Guard::new` (the guard then lives inside the async state machine), each
poll drives the `AsyncGuard` one step; on completion the non-zero-delta
check runs against the accumulated total and the guard is dropped — also
when the check panics or the inner step panics (unwinding destroys the
async fn's locals). On `Pending` the guard stays alive. -/
def GuardFuture.poll (g : GuardFuture) (s : TL) :
    Except Failure (Poll Nat × GuardFuture) × TL :=
  let st :=
    match g.saved with
    | none => Guard.new g.mode s
    | some sv => (sv, s)
  match AsyncGuard.poll g.inner st.2 with
  | (.ok (.Ready (counts, v), inner'), s') =>
    if g.mode ≠ AllocMode.Ignore ∧ counts ≠ ((0, 0, 0) : Counters) then
      (.error (.allocViolation counts.1 counts.2.1 counts.2.2),
        Guard.drop st.1 s')
    else
      (.ok (.Ready v, { mode := g.mode, saved := some st.1, inner := inner' }),
        Guard.drop st.1 s')
  | (.ok (.Pending, inner'), s') =>
    (.ok (.Pending, { mode := g.mode, saved := some st.1, inner := inner' }), s')
  | (.error e, s') => (.error e, Guard.drop st.1 s')

/-- Dropping an abandoned `guard_future` (never driven to completion): the
async state machine's locals are destroyed, so the `Guard`, if it was ever
created, restores the recorded mode; the accumulated total is discarded and
no delta judgment happens. -/
def GuardFuture.dropped (g : GuardFuture) (s : TL) : TL :=
  match g.saved with
  | none => s
  | some sv => Guard.drop sv s

/-! ### Specification-side measures -/

/-- The mode in force inside a scope requested with mode `m` while the
ambient mode is `cur` (the stickiness rule of `Guard::new`). -/
def modeInScope (cur m : AllocMode) : AllocMode :=
  if cur = AllocMode.CountAll then AllocMode.CountAll else m

/-- Specification-side measure: the allocator calls a unit of work performs
that are counted when the ambient mode is `cur` — calls under an effective
`Ignore` (e.g. inside a nested `allow_alloc` sub-scope) are excluded, and
the stickiness of `CountAll` is honoured. -/
def countedOps (cur : AllocMode) : Work → Counters
  | .ret _ => (0, 0, 0)
  | .fail _ => (0, 0, 0)
  | .act a => if cur = AllocMode.Ignore then (0, 0, 0) else actUnit a
  | .seq w₁ w₂ => addC (countedOps cur w₁) (countedOps cur w₂)
  | .scope m w => countedOps (modeInScope cur m) w

/-- A bare sequence of allocator calls ending in a returned value: the shape
of a closure that only performs raw allocator operations. -/
def seqOfActs : List Act → Nat → Work
  | [], v => .ret v
  | a :: rest, v => .seq (.act a) (seqOfActs rest v)

/-- The per-kind multiset of a sequence of allocator calls. -/
def actCounts : List Act → Counters
  | [] => (0, 0, 0)
  | a :: rest => addC (actUnit a) (actCounts rest)

/-- `n` nested `allow_alloc` scopes around a unit of work. -/
def nestAllow : Nat → Work → Work
  | 0, w => w
  | n + 1, w => .scope AllocMode.Ignore (nestAllow n w)

/-- A unit of work that never panics, from any state: neither a panic of its
own nor an allocation violation raised by one of its nested scopes. -/
def NeverFails (w : Work) : Prop :=
  ∀ s : TL, ∃ v : Nat, (run w s).1 = Except.ok v

/-! ### Basic lemmas -/

theorem addC_zero (c : Counters) : addC c (0, 0, 0) = c := by
  cases c with
  | mk a rest => cases rest with
    | mk r d => simp [addC]

theorem subC_addC (c d : Counters) : subC (addC c d) c = d := by
  cases c with
  | mk a rest => cases rest with
    | mk r d' => simp [addC, subC]

theorem addC_assoc (c d e : Counters) : addC (addC c d) e = addC c (addC d e) := by
  simp [addC, Nat.add_assoc]

theorem Guard.new_fst (m : AllocMode) (s : TL) : (Guard.new m s).1 = s.mode := by
  by_cases h : s.mode = AllocMode.CountAll <;> simp [Guard.new, h]

theorem Guard.new_snd_mode (m : AllocMode) (s : TL) :
    (Guard.new m s).2.mode = modeInScope s.mode m := by
  by_cases h : s.mode = AllocMode.CountAll <;> simp [Guard.new, modeInScope, h]

theorem Guard.new_snd_counters (m : AllocMode) (s : TL) :
    (Guard.new m s).2.counters = s.counters := by
  by_cases h : s.mode = AllocMode.CountAll <;> simp [Guard.new, h]

theorem countEvent_mode (a : Act) (s : TL) : (countEvent a s).mode = s.mode := by
  cases a <;> by_cases h : s.mode = AllocMode.Ignore <;>
    simp [countEvent, AllocCounter.alloc, AllocCounter.realloc,
      AllocCounter.dealloc, h]

theorem countEvent_counters (a : Act) (s : TL) :
    (countEvent a s).counters =
      if s.mode = AllocMode.Ignore then s.counters
      else addC s.counters (actUnit a) := by
  cases a <;> by_cases h : s.mode = AllocMode.Ignore <;>
    simp [countEvent, AllocCounter.alloc, AllocCounter.realloc,
      AllocCounter.dealloc, actUnit, addC, h]

theorem subC_self (c : Counters) : subC c c = (0, 0, 0) := by
  simp [subC]

theorem zero_addC (d : Counters) : addC (0, 0, 0) d = d := by
  cases d with
  | mk a rest => cases rest with
    | mk r d' => simp [addC]

/-- The interpreter restores the ambient mode on every path — normal
completion, allocation-violation panic, and propagated panic alike. -/
theorem run_mode (w : Work) : ∀ s : TL, (run w s).2.mode = s.mode := by
  induction w with
  | ret v => intro s; rfl
  | act a => intro s; exact countEvent_mode a s
  | fail c => intro s; rfl
  | seq w₁ w₂ ih₁ ih₂ =>
    intro s
    rcases hw : run w₁ s with ⟨r, s₁⟩
    have h₁ : s₁.mode = s.mode := by rw [← ih₁ s, hw]
    cases r with
    | ok v =>
      simp only [run, hw]
      rw [ih₂ s₁, h₁]
    | error e =>
      simp only [run, hw]
      exact h₁
  | scope m w ih =>
    intro s
    rcases hw : run w (Guard.new m s).2 with ⟨r, s₂⟩
    cases r with
    | ok v =>
      simp only [run, hw]
      split <;> simp [Guard.drop, Guard.new_fst]
    | error e =>
      simp only [run, hw]
      simp [Guard.drop, Guard.new_fst]

/-- When a unit of work completes normally, the counters advance by exactly
the specification-side measure `countedOps` of the ambient mode. -/
theorem run_counters_ok (w : Work) : ∀ (s s₂ : TL) (v : Nat),
    run w s = (Except.ok v, s₂) →
    s₂.counters = addC s.counters (countedOps s.mode w) := by
  induction w with
  | ret v' =>
    intro s s₂ v h
    simp only [run] at h
    injection h with h₁ h₂
    subst h₂
    simp only [countedOps]
    exact (addC_zero s.counters).symm
  | act a =>
    intro s s₂ v h
    simp only [run] at h
    injection h with h₁ h₂
    subst h₂
    rw [countEvent_counters]
    by_cases hm : s.mode = AllocMode.Ignore
    · rw [if_pos hm]
      simp only [countedOps, if_pos hm]
      exact (addC_zero s.counters).symm
    · rw [if_neg hm]
      simp only [countedOps, if_neg hm]
  | fail c =>
    intro s s₂ v h
    simp only [run] at h
    exact absurd h (by simp)
  | seq w₁ w₂ ih₁ ih₂ =>
    intro s s₂ v h
    rcases hw : run w₁ s with ⟨r, s₁⟩
    cases r with
    | ok v₁ =>
      simp only [run, hw] at h
      have hmode : s₁.mode = s.mode := by rw [← run_mode w₁ s, hw]
      have e₁ := ih₁ s s₁ v₁ hw
      have e₂ := ih₂ s₁ s₂ v h
      rw [hmode] at e₂
      rw [e₂, e₁]
      simp only [countedOps, addC_assoc]
    | error e =>
      simp only [run, hw] at h
      exact absurd h (by simp)
  | scope m w ih =>
    intro s s₂ v h
    rcases hw : run w (Guard.new m s).2 with ⟨r, s'⟩
    cases r with
    | ok v' =>
      simp only [run, hw] at h
      have e₁ := ih (Guard.new m s).2 s' v' hw
      rw [Guard.new_snd_mode, Guard.new_snd_counters] at e₁
      split at h
      · exact absurd h (by simp)
      · injection h with h₁ h₂
        subst h₂
        simp only [countedOps, Guard.drop]
        exact e₁
    | error e =>
      simp only [run, hw] at h
      exact absurd h (by simp)

/-- Normal completion together with the delta, in the form `count_alloc`
produces: the measured delta is exactly `countedOps`. -/
theorem count_alloc_ok (w : Work) (s s₂ : TL) (v : Nat)
    (h : run w s = (Except.ok v, s₂)) :
    count_alloc w s = (Except.ok (countedOps s.mode w, v), s₂) := by
  have hc := run_counters_ok w s s₂ v h
  simp only [count_alloc, count_alloc_fn, h]
  rw [hc, subC_addC]

/-- The interpreter's `scope` case is `guard_fn`. -/
theorem run_scope_eq (m : AllocMode) (w : Work) (s : TL) :
    run (Work.scope m w) s = guard_fn m w s := by
  rcases hw : run w (Guard.new m s).2 with ⟨r, s₂⟩
  cases r with
  | ok v =>
    simp only [run, guard_fn, count_alloc, count_alloc_fn, hw]
  | error e =>
    simp only [run, guard_fn, count_alloc, count_alloc_fn, hw]

/-- `guard_fn` when the work completes normally: the non-zero-delta check
decides between the work's value and the allocation-violation panic, and the
mode is restored either way. -/
theorem guard_fn_of_run_ok (m : AllocMode) (w : Work) (s s₂ : TL) (v : Nat)
    (h : run w (Guard.new m s).2 = (Except.ok v, s₂)) :
    guard_fn m w s =
      (if m ≠ AllocMode.Ignore ∧
          countedOps (modeInScope s.mode m) w ≠ ((0, 0, 0) : Counters) then
        (Except.error (Failure.allocViolation
          (countedOps (modeInScope s.mode m) w).1
          (countedOps (modeInScope s.mode m) w).2.1
          (countedOps (modeInScope s.mode m) w).2.2),
          { s₂ with mode := s.mode })
      else (Except.ok v, { s₂ with mode := s.mode })) := by
  have hc := count_alloc_ok w (Guard.new m s).2 s₂ v h
  rw [Guard.new_snd_mode] at hc
  simp only [guard_fn, hc, Guard.drop, Guard.new_fst]

/-- `guard_fn` when the work itself panics: the panic propagates verbatim
and the mode is restored. -/
theorem guard_fn_of_run_err (m : AllocMode) (w : Work) (s s₂ : TL) (e : Failure)
    (h : run w (Guard.new m s).2 = (Except.error e, s₂)) :
    guard_fn m w s = (Except.error e, { s₂ with mode := s.mode }) := by
  simp only [guard_fn, count_alloc, count_alloc_fn, h, Guard.drop, Guard.new_fst]

/-- `guard_fn` always restores the ambient mode. -/
theorem guard_fn_mode (m : AllocMode) (w : Work) (s : TL) :
    (guard_fn m w s).2.mode = s.mode := by
  rcases hw : run w (Guard.new m s).2 with ⟨r, s₂⟩
  cases r with
  | ok v =>
    rw [guard_fn_of_run_ok m w s s₂ v hw]
    split <;> rfl
  | error e =>
    rw [guard_fn_of_run_err m w s s₂ e hw]

/-- `countEvent` in a counting mode, as a record update. -/
theorem countEvent_of_ne (a : Act) (t : TL) (ht : t.mode ≠ AllocMode.Ignore) :
    countEvent a t = { t with counters := addC t.counters (actUnit a) } := by
  have h₁ := countEvent_counters a t
  rw [if_neg ht] at h₁
  have h₂ := countEvent_mode a t
  cases hce : countEvent a t with
  | mk c mo =>
    rw [hce] at h₁ h₂
    simp only at h₁ h₂
    rw [h₁, h₂]

/-- `countEvent` under `Ignore` leaves the state untouched. -/
theorem countEvent_of_ignore (a : Act) (t : TL) (ht : t.mode = AllocMode.Ignore) :
    countEvent a t = t := by
  have h₁ := countEvent_counters a t
  rw [if_pos ht] at h₁
  have h₂ := countEvent_mode a t
  cases hce : countEvent a t with
  | mk c mo =>
    rw [hce] at h₁ h₂
    simp only at h₁ h₂
    rw [h₁, h₂]

/-- A bare act-sequence run with counting in force: value returned, counters
advanced by the multiset of calls, mode untouched. -/
theorem run_seqOfActs_of_ne (l : List Act) (vr : Nat) : ∀ t : TL,
    t.mode ≠ AllocMode.Ignore →
    run (seqOfActs l vr) t =
      (Except.ok vr, { t with counters := addC t.counters (actCounts l) }) := by
  induction l with
  | nil =>
    intro t ht
    simp only [seqOfActs, run, actCounts, addC_zero]
  | cons a rest ih =>
    intro t ht
    simp only [seqOfActs, run, countEvent_of_ne a t ht]
    rw [ih { t with counters := addC t.counters (actUnit a) } ht]
    simp only [actCounts, addC_assoc]

/-- A bare act-sequence run under `Ignore`: nothing is counted and the state
is untouched. -/
theorem run_seqOfActs_ignore (l : List Act) (vr : Nat) : ∀ t : TL,
    t.mode = AllocMode.Ignore →
    run (seqOfActs l vr) t = (Except.ok vr, t) := by
  induction l with
  | nil => intro t ht; rfl
  | cons a rest ih =>
    intro t ht
    simp only [seqOfActs, run, countEvent_of_ignore a t ht]
    exact ih t ht

/-- Under a sticky `CountAll` mode, any tower of nested `allow_alloc` scopes
around a single allocation still counts it and completes normally (the
nested scopes request `Ignore`, so they themselves never panic). -/
theorem run_nestAllow_countall (n : Nat) : ∀ t : TL,
    t.mode = AllocMode.CountAll →
    run (nestAllow n (Work.act Act.alloc)) t =
      (Except.ok 0, { t with counters := addC t.counters (1, 0, 0) }) := by
  induction n with
  | zero =>
    intro t ht
    have ht' : t.mode ≠ AllocMode.Ignore := by rw [ht]; exact fun hcon => by cases hcon
    simp only [nestAllow, run, countEvent_of_ne Act.alloc t ht']
    simp [actUnit]
  | succ n ih =>
    intro t ht
    have hg : Guard.new AllocMode.Ignore t = (AllocMode.CountAll, t) := by
      simp [Guard.new, ht]
    have hin := ih t ht
    simp only [nestAllow, run, hg, hin]
    simp [Guard.drop, ht]

/-- One poll of an `AsyncGuard` over a suspending step: the step's work runs
once, its delta is added to the running total, and the wrapper suspends. -/
theorem asyncguard_poll_pend (wa : Work) (rest : Fut) (g : Counters)
    (s s' : TL) (v : Nat) (h : run wa s = (Except.ok v, s')) :
    AsyncGuard.poll { counts := g, future := Fut.pend wa rest } s =
      (Except.ok (Poll.Pending,
        { counts := addC g (countedOps s.mode wa), future := rest }), s') := by
  have hc := run_counters_ok wa s s' v h
  simp only [AsyncGuard.poll, count_alloc_fn, Fut.poll, h]
  rw [hc, subC_addC]
  simp [addC]

/-- One poll of an `AsyncGuard` over the final step: the step's delta joins
the total and the wrapper completes with `(total, result)`. -/
theorem asyncguard_poll_done (wb : Work) (g : Counters) (s s' : TL) (v : Nat)
    (h : run wb s = (Except.ok v, s')) :
    AsyncGuard.poll { counts := g, future := Fut.done wb } s =
      (Except.ok (Poll.Ready (addC g (countedOps s.mode wb), v),
        { counts := addC g (countedOps s.mode wb), future := Fut.done wb }), s') := by
  have hc := run_counters_ok wb s s' v h
  simp only [AsyncGuard.poll, count_alloc_fn, Fut.poll, h]
  rw [hc, subC_addC]
  simp [addC]

/-- Under a sticky `CountAll` mode the allocation inside any tower of nested
`allow_alloc` scopes is still attributed to the enclosing scope. -/
theorem countedOps_nestAllow_countall (n : Nat) :
    countedOps AllocMode.CountAll (nestAllow n (Work.act Act.alloc)) = (1, 0, 0) := by
  induction n with
  | zero => rfl
  | succ n ih =>
    simp only [nestAllow, countedOps, modeInScope]
    simpa using ih

/-! ### The claims -/

/-- C1: with `deny_alloc` entered from a non-`CountAll` mode and a unit of
work that completes normally, `deny_alloc` fails if and only if the work
performs at least one allocate, reallocate or deallocate that is counted —
activity inside nested `allow_alloc` sub-scopes is excluded by `countedOps`,
and the three components of the delta are compared independently as a
triple; on a `(0,0,0)` delta `deny_alloc` returns the work's own result. -/
theorem claim_C1_deny_alloc_iff (w : Work) (s s₂ : TL) (v : Nat)
    (hmode : s.mode ≠ AllocMode.CountAll)
    (h : run w { s with mode := AllocMode.Count } = (Except.ok v, s₂)) :
    ((deny_alloc w s).1 = Except.ok v ↔ countedOps AllocMode.Count w = (0, 0, 0))
    ∧ (countedOps AllocMode.Count w = (0, 0, 0) →
        deny_alloc w s = (Except.ok v, { s₂ with mode := s.mode }))
    ∧ (countedOps AllocMode.Count w ≠ (0, 0, 0) →
        deny_alloc w s = (Except.error (Failure.allocViolation
          (countedOps AllocMode.Count w).1
          (countedOps AllocMode.Count w).2.1
          (countedOps AllocMode.Count w).2.2),
          { s₂ with mode := s.mode })) := by
  have hg2 : (Guard.new AllocMode.Count s).2 = { s with mode := AllocMode.Count } := by
    simp [Guard.new, hmode]
  have hmis : modeInScope s.mode AllocMode.Count = AllocMode.Count := by
    simp [modeInScope, hmode]
  have h' : run w (Guard.new AllocMode.Count s).2 = (Except.ok v, s₂) := by
    rw [hg2]; exact h
  have key := guard_fn_of_run_ok AllocMode.Count w s s₂ v h'
  rw [hmis] at key
  by_cases hd : countedOps AllocMode.Count w = (0, 0, 0)
  · rw [if_neg (by simp [hd])] at key
    have hfst : (deny_alloc w s).1 = Except.ok v := by
      show (guard_fn AllocMode.Count w s).1 = Except.ok v
      rw [key]
    exact ⟨⟨fun _ => hd, fun _ => hfst⟩, fun _ => key, fun hcon => absurd hd hcon⟩
  · rw [if_pos ⟨by decide, hd⟩] at key
    have hfst : (deny_alloc w s).1 = Except.error (Failure.allocViolation
        (countedOps AllocMode.Count w).1
        (countedOps AllocMode.Count w).2.1
        (countedOps AllocMode.Count w).2.2) := by
      show (guard_fn AllocMode.Count w s).1 = _
      rw [key]
    refine ⟨⟨fun hx => ?_, fun h0 => absurd h0 hd⟩, fun hcon => absurd hcon hd,
      fun _ => key⟩
    rw [hfst] at hx
    exact Except.noConfusion hx

/-- Witness for C1 at a concrete input: one deallocation and nothing else
still makes `deny_alloc` fail, with counts `(0, 0, 1)`. -/
theorem claim_C1_deny_alloc_iff_witness :
    countedOps AllocMode.Count (Work.act Act.dealloc) ≠ (0, 0, 0)
    ∧ deny_alloc (Work.act Act.dealloc) ⟨(0, 0, 0), AllocMode.Count⟩ =
        (Except.error (Failure.allocViolation 0 0 1), ⟨(0, 0, 1), AllocMode.Count⟩) := by
  refine ⟨by decide, ?_⟩
  exact (claim_C1_deny_alloc_iff (Work.act Act.dealloc) ⟨(0, 0, 0), AllocMode.Count⟩
    ⟨(0, 0, 1), AllocMode.Count⟩ 0 (by decide) rfl).2.2 (by decide)

/-- C2: every scope function (and `guard_fn` at any requested mode) leaves
the per-thread mode after the scope exactly as it was before the scope, on
every exit path — normal return, propagated failure, and the scope's own
allocation-violation panic — and the interpreter preserves the mode across
any unit of work, i.e. across arbitrarily deep nesting of guards, which
restore in reverse order as the recursion unwinds. -/
theorem claim_C2_mode_restored (m : AllocMode) (w : Work) (s : TL) :
    (guard_fn m w s).2.mode = s.mode
    ∧ (allow_alloc w s).2.mode = s.mode
    ∧ (deny_alloc w s).2.mode = s.mode
    ∧ (forbid_alloc w s).2.mode = s.mode
    ∧ (run w s).2.mode = s.mode :=
  ⟨guard_fn_mode m w s, guard_fn_mode AllocMode.Ignore w s,
    guard_fn_mode AllocMode.Count w s, guard_fn_mode AllocMode.CountAll w s,
    run_mode w s⟩

/-- C3: when the current mode is `CountAll`, constructing a guard with any
requested mode leaves the mode at `CountAll` and records `CountAll` for
restoration; consequently `forbid_alloc` of an allocation wrapped in any
number of nested `allow_alloc` scopes still fails, with counts `(1,0,0)`. -/
theorem claim_C3_countall_sticky (m : AllocMode) (s : TL)
    (h : s.mode = AllocMode.CountAll) :
    Guard.new m s = (AllocMode.CountAll, s)
    ∧ ∀ (n : Nat) (s' : TL),
        forbid_alloc (nestAllow n (Work.act Act.alloc)) s' =
          (Except.error (Failure.allocViolation 1 0 0),
            { s' with counters := addC s'.counters (1, 0, 0) }) := by
  constructor
  · simp [Guard.new, h]
  · intro n s'
    have hg2 : (Guard.new AllocMode.CountAll s').2 =
        { s' with mode := AllocMode.CountAll } := by
      cases s' with
      | mk c mo =>
        by_cases hc : mo = AllocMode.CountAll
        · subst hc; simp [Guard.new]
        · simp [Guard.new, hc]
    have h' : run (nestAllow n (Work.act Act.alloc)) (Guard.new AllocMode.CountAll s').2 =
        (Except.ok 0,
          { counters := addC s'.counters (1, 0, 0), mode := AllocMode.CountAll }) := by
      rw [hg2]
      exact run_nestAllow_countall n { s' with mode := AllocMode.CountAll } rfl
    have key := guard_fn_of_run_ok AllocMode.CountAll (nestAllow n (Work.act Act.alloc))
      s' _ 0 h'
    have hmis : modeInScope s'.mode AllocMode.CountAll = AllocMode.CountAll := by
      by_cases hc : s'.mode = AllocMode.CountAll <;> simp [modeInScope, hc]
    rw [hmis, countedOps_nestAllow_countall] at key
    rw [if_pos ⟨by decide, by decide⟩] at key
    simp only [forbid_alloc]
    exact key

/-- Witness for C3 at concrete inputs: under `CountAll` a guard requesting
`Ignore` changes nothing, and `forbid_alloc` with two nested `allow_alloc`
scopes around one allocation fails with counts `(1,0,0)`. -/
theorem claim_C3_countall_sticky_witness :
    Guard.new AllocMode.Ignore ⟨(0, 0, 0), AllocMode.CountAll⟩ =
      (AllocMode.CountAll, ⟨(0, 0, 0), AllocMode.CountAll⟩)
    ∧ forbid_alloc (nestAllow 2 (Work.act Act.alloc)) ⟨(0, 0, 0), AllocMode.Count⟩ =
        (Except.error (Failure.allocViolation 1 0 0), ⟨(1, 0, 0), AllocMode.Count⟩) := by
  have h := claim_C3_countall_sticky AllocMode.Ignore ⟨(0, 0, 0), AllocMode.CountAll⟩ rfl
  exact ⟨h.1, h.2 2 ⟨(0, 0, 0), AllocMode.Count⟩⟩

/-- C4: `allow_alloc` propagates the work's own outcome verbatim, so it
never raises an allocation violation of its own, however much the work
allocates; in particular nested inside `forbid_alloc` (ambient `CountAll`)
an allocation in the allow scope completes normally even though the
measurement observes the non-zero delta in the counters. -/
theorem claim_C4_allow_alloc_never_fails (w : Work) (s : TL) :
    (allow_alloc w s).1 = (run w (Guard.new AllocMode.Ignore s).2).1
    ∧ (s.mode = AllocMode.CountAll →
        (allow_alloc (Work.act Act.alloc) s).1 = Except.ok 0
        ∧ (allow_alloc (Work.act Act.alloc) s).2.counters =
            addC s.counters (1, 0, 0)) := by
  constructor
  · rcases hw : run w (Guard.new AllocMode.Ignore s).2 with ⟨r, s₂⟩
    cases r with
    | ok v =>
      simp only [allow_alloc]
      rw [guard_fn_of_run_ok AllocMode.Ignore w s s₂ v hw]
      simp
    | error e =>
      simp only [allow_alloc]
      rw [guard_fn_of_run_err AllocMode.Ignore w s s₂ e hw]
  · intro hCA
    have hg : Guard.new AllocMode.Ignore s = (AllocMode.CountAll, s) := by
      simp [Guard.new, hCA]
    have hne : s.mode ≠ AllocMode.Ignore := by
      rw [hCA]; exact fun hcon => by cases hcon
    have hrun : run (Work.act Act.alloc) (Guard.new AllocMode.Ignore s).2 =
        (Except.ok 0, { s with counters := addC s.counters (1, 0, 0) }) := by
      rw [hg]
      simp only [run, countEvent_of_ne Act.alloc s hne]
      simp [actUnit]
    have key := guard_fn_of_run_ok AllocMode.Ignore (Work.act Act.alloc) s _ 0 hrun
    simp only [allow_alloc]
    rw [key]
    simp

/-- Witness for C4 at a concrete input: inside an ambient `CountAll`, an
`allow_alloc` around one allocation succeeds while its measurement still
recorded the allocation in the counters. -/
theorem claim_C4_allow_alloc_never_fails_witness :
    (allow_alloc (Work.act Act.alloc) ⟨(0, 0, 0), AllocMode.CountAll⟩).1 = Except.ok 0
    ∧ (allow_alloc (Work.act Act.alloc) ⟨(0, 0, 0), AllocMode.CountAll⟩).2.counters =
        addC (0, 0, 0) (1, 0, 0) :=
  (claim_C4_allow_alloc_never_fails (Work.act Act.alloc)
    ⟨(0, 0, 0), AllocMode.CountAll⟩).2 rfl

/-- C5: each `AllocCounter` primitive bumps exactly its own counter by 1
when the mode is not `Ignore` and none of them otherwise, independently of
the backing allocator's reply (which may be a null/failure result), and
returns the backing allocator's reply verbatim. -/
theorem claim_C5_alloc_counter_primitives (s : TL) :
    (∀ (backing : Nat → Option Nat) (layout : Nat),
      AllocCounter.alloc backing layout s =
        (backing layout,
          if s.mode = AllocMode.Ignore then s
          else { s with counters := addC s.counters (1, 0, 0) }))
    ∧ (∀ (backing : Nat → Nat → Nat → Option Nat) (ptr layout newSize : Nat),
      AllocCounter.realloc backing ptr layout newSize s =
        (backing ptr layout newSize,
          if s.mode = AllocMode.Ignore then s
          else { s with counters := addC s.counters (0, 1, 0) }))
    ∧ (∀ (backing : Nat → Nat → Unit) (ptr layout : Nat),
      AllocCounter.dealloc backing ptr layout s =
        (backing ptr layout,
          if s.mode = AllocMode.Ignore then s
          else { s with counters := addC s.counters (0, 0, 1) })) := by
  refine ⟨fun backing layout => ?_, fun backing ptr layout newSize => ?_,
    fun backing ptr layout => ?_⟩ <;>
  · by_cases hm : s.mode = AllocMode.Ignore <;>
      simp [AllocCounter.alloc, AllocCounter.realloc, AllocCounter.dealloc, addC, hm]

/-- C6: `count_alloc` returns the counter difference around the work
together with the work's result, and for a bare sequence of allocator calls
under a counting mode the measured delta is exactly the per-kind multiset
of the calls. -/
theorem claim_C6_count_alloc_delta (w : Work) (l : List Act) (vr : Nat)
    (s s₂ t : TL) (v : Nat)
    (h : run w s = (Except.ok v, s₂)) (hm : t.mode ≠ AllocMode.Ignore) :
    count_alloc w s = (Except.ok (subC s₂.counters s.counters, v), s₂)
    ∧ count_alloc (seqOfActs l vr) t =
        (Except.ok (actCounts l, vr),
          { t with counters := addC t.counters (actCounts l) }) := by
  constructor
  · simp only [count_alloc, count_alloc_fn, h]
  · have hr := run_seqOfActs_of_ne l vr t hm
    simp only [count_alloc, count_alloc_fn, hr]
    simp [subC_addC]

/-- Witness for C6 at a concrete input: one allocate, one reallocate and one
deallocate measure as delta `(1, 1, 1)`. -/
theorem claim_C6_count_alloc_delta_witness :
    count_alloc (seqOfActs [Act.alloc, Act.realloc, Act.dealloc] 9)
        ⟨(5, 5, 5), AllocMode.Count⟩ =
      (Except.ok ((1, 1, 1), 9), ⟨(6, 6, 6), AllocMode.Count⟩) :=
  (claim_C6_count_alloc_delta (Work.ret 3) [Act.alloc, Act.realloc, Act.dealloc] 9
    ⟨(0, 0, 0), AllocMode.Count⟩ ⟨(0, 0, 0), AllocMode.Count⟩
    ⟨(5, 5, 5), AllocMode.Count⟩ 3 rfl (by decide)).2

/-- C9: when the unit of work itself panics, `guard_fn` (hence each of the
scope functions) propagates exactly that panic — never an allocation
violation in its place — and the prior mode is restored first; the
violation check runs only on the normal-completion path. -/
theorem claim_C9_failure_propagation (m : AllocMode) (w : Work) (s s₂ : TL)
    (e : Failure) (h : run w (Guard.new m s).2 = (Except.error e, s₂)) :
    guard_fn m w s = (Except.error e, { s₂ with mode := s.mode }) :=
  guard_fn_of_run_err m w s s₂ e h

/-- Witness for C9 at a concrete input: a panic with payload 7 inside
`deny_alloc` comes out as exactly that panic, with the mode restored. -/
theorem claim_C9_failure_propagation_witness :
    guard_fn AllocMode.Count (Work.fail 7) ⟨(0, 0, 0), AllocMode.Count⟩ =
      (Except.error (Failure.userFailure 7), ⟨(0, 0, 0), AllocMode.Count⟩) :=
  claim_C9_failure_propagation AllocMode.Count (Work.fail 7)
    ⟨(0, 0, 0), AllocMode.Count⟩ ⟨(0, 0, 0), AllocMode.Count⟩
    (Failure.userFailure 7) rfl

/-- C10: `count_alloc` installs no guard, so under an ambient `Ignore` mode
a closure performing any number of raw allocator calls measures as delta
`(0, 0, 0)` and its result is returned; the state is untouched. -/
theorem claim_C10_count_alloc_ignore (l : List Act) (vr : Nat) (s : TL)
    (hm : s.mode = AllocMode.Ignore) :
    count_alloc (seqOfActs l vr) s = (Except.ok ((0, 0, 0), vr), s) := by
  have hr := run_seqOfActs_ignore l vr s hm
  simp only [count_alloc, count_alloc_fn, hr]
  simp [subC_self]

/-- Witness for C10 at a concrete input: three allocator calls under
`Ignore` measure as `(0, 0, 0)`. -/
theorem claim_C10_count_alloc_ignore_witness :
    count_alloc (seqOfActs [Act.alloc, Act.alloc, Act.dealloc] 4)
        ⟨(2, 2, 2), AllocMode.Ignore⟩ =
      (Except.ok ((0, 0, 0), 4), ⟨(2, 2, 2), AllocMode.Ignore⟩) :=
  claim_C10_count_alloc_ignore [Act.alloc, Act.alloc, Act.dealloc] 4
    ⟨(2, 2, 2), AllocMode.Ignore⟩ rfl

/-- C7: for a two-step wrapped computation, the `AsyncGuard` measures a
delta around exactly the one resumption step of each poll, accumulates it
into the running total (`countedOps` of the first step after the first
poll), and on the completing step returns the total including that step
together with the result; an arbitrary unit of work `u` executed on the
thread between the two polls never enters the total — the final total does
not mention `u`. -/
theorem claim_C7_async_accumulator (wa wb u : Work) (s : TL)
    (ha : NeverFails wa) (hb : NeverFails wb) :
    ∃ (g₁ : AsyncGuard) (s₁ : TL) (vb : Nat),
      AsyncGuard.poll (count_alloc_future (Fut.pend wa (Fut.done wb))) s =
        (Except.ok (Poll.Pending, g₁), s₁)
      ∧ g₁.counts = countedOps s.mode wa
      ∧ (AsyncGuard.poll g₁ (run u s₁).2).1 =
          Except.ok (Poll.Ready
            (addC (countedOps s.mode wa) (countedOps s.mode wb), vb),
            { counts := addC (countedOps s.mode wa) (countedOps s.mode wb),
              future := Fut.done wb }) := by
  obtain ⟨va, hva⟩ := ha s
  rcases hwa : run wa s with ⟨ra, s₁⟩
  rw [hwa] at hva
  have hra : ra = Except.ok va := hva
  subst hra
  have hp₁ := asyncguard_poll_pend wa (Fut.done wb) (0, 0, 0) s s₁ va hwa
  rw [zero_addC] at hp₁
  refine ⟨{ counts := countedOps s.mode wa, future := Fut.done wb }, s₁, ?_⟩
  have hm₁ : s₁.mode = s.mode := by rw [← run_mode wa s, hwa]
  have hm₂ : (run u s₁).2.mode = s.mode := by rw [run_mode u s₁, hm₁]
  obtain ⟨vb, hvb⟩ := hb (run u s₁).2
  rcases hwb : run wb (run u s₁).2 with ⟨rb, s₃⟩
  rw [hwb] at hvb
  have hrb : rb = Except.ok vb := hvb
  subst hrb
  have hp₂ := asyncguard_poll_done wb (countedOps s.mode wa) (run u s₁).2 s₃ vb hwb
  rw [hm₂] at hp₂
  exact ⟨vb, hp₁, rfl, by rw [hp₂]⟩

/-- Witness for C7 at concrete inputs: first step allocates, final step
deallocates, the interleaved work reallocates; the reported total is
`(1, 0, 1)` — the interleaved reallocation is not attributed. -/
theorem claim_C7_async_accumulator_witness :
    ∃ (g₁ : AsyncGuard) (s₁ : TL) (vb : Nat),
      AsyncGuard.poll
          (count_alloc_future (Fut.pend (Work.act Act.alloc) (Fut.done (Work.act Act.dealloc))))
          ⟨(0, 0, 0), AllocMode.Count⟩ =
        (Except.ok (Poll.Pending, g₁), s₁)
      ∧ g₁.counts = countedOps AllocMode.Count (Work.act Act.alloc)
      ∧ (AsyncGuard.poll g₁ (run (Work.act Act.realloc) s₁).2).1 =
          Except.ok (Poll.Ready
            (addC (countedOps AllocMode.Count (Work.act Act.alloc))
              (countedOps AllocMode.Count (Work.act Act.dealloc)), vb),
            { counts := addC (countedOps AllocMode.Count (Work.act Act.alloc))
                (countedOps AllocMode.Count (Work.act Act.dealloc)),
              future := Fut.done (Work.act Act.dealloc) }) :=
  claim_C7_async_accumulator (Work.act Act.alloc) (Work.act Act.dealloc)
    (Work.act Act.realloc) ⟨(0, 0, 0), AllocMode.Count⟩
    (fun _ => ⟨0, rfl⟩) (fun _ => ⟨0, rfl⟩)

/-- C8: `guard_future` applies the non-zero-delta judgment only on final
completion, against the total accumulated across both resumption steps:
driving a two-step computation to completion fails with exactly the three
accumulated counts when the requested mode is not `Ignore` and the total is
non-zero, succeeds with the computation's result otherwise, restoring the
prior mode either way; abandoning it after the first poll restores the
prior mode and merely discards the partial total — no judgment. -/
theorem claim_C8_guard_future_judgment (m : AllocMode) (wa wb : Work) (s : TL)
    (ha : NeverFails wa) (hb : NeverFails wb) :
    ∃ (g₁ : GuardFuture) (s₁ : TL) (vb : Nat),
      GuardFuture.poll (guard_future m (Fut.pend wa (Fut.done wb))) s =
        (Except.ok (Poll.Pending, g₁), s₁)
      ∧ GuardFuture.dropped g₁ s₁ = { s₁ with mode := s.mode }
      ∧ (m ≠ AllocMode.Ignore ∧
          addC (countedOps (modeInScope s.mode m) wa)
            (countedOps (modeInScope s.mode m) wb) ≠ (0, 0, 0) →
          (GuardFuture.poll g₁ s₁).1 = Except.error (Failure.allocViolation
            (addC (countedOps (modeInScope s.mode m) wa)
              (countedOps (modeInScope s.mode m) wb)).1
            (addC (countedOps (modeInScope s.mode m) wa)
              (countedOps (modeInScope s.mode m) wb)).2.1
            (addC (countedOps (modeInScope s.mode m) wa)
              (countedOps (modeInScope s.mode m) wb)).2.2))
      ∧ (¬(m ≠ AllocMode.Ignore ∧
            addC (countedOps (modeInScope s.mode m) wa)
              (countedOps (modeInScope s.mode m) wb) ≠ (0, 0, 0)) →
          ∃ g₂, (GuardFuture.poll g₁ s₁).1 = Except.ok (Poll.Ready vb, g₂))
      ∧ (GuardFuture.poll g₁ s₁).2.mode = s.mode := by
  obtain ⟨va, hva⟩ := ha (Guard.new m s).2
  rcases hwa : run wa (Guard.new m s).2 with ⟨ra, s₁⟩
  rw [hwa] at hva
  have hra : ra = Except.ok va := hva
  subst hra
  have hp₁ := asyncguard_poll_pend wa (Fut.done wb) (0, 0, 0) (Guard.new m s).2 s₁ va hwa
  rw [zero_addC, Guard.new_snd_mode] at hp₁
  have hpoll₁ : GuardFuture.poll (guard_future m (Fut.pend wa (Fut.done wb))) s =
      (Except.ok (Poll.Pending,
        { mode := m, saved := some s.mode,
          inner := { counts := countedOps (modeInScope s.mode m) wa,
                     future := Fut.done wb } }), s₁) := by
    simp only [GuardFuture.poll, guard_future, count_alloc_future, hp₁, Guard.new_fst]
  have hm₁ : s₁.mode = modeInScope s.mode m := by
    have h := run_mode wa (Guard.new m s).2
    rw [hwa, Guard.new_snd_mode] at h
    exact h
  obtain ⟨vb, hvb⟩ := hb s₁
  rcases hwb : run wb s₁ with ⟨rb, s₂⟩
  rw [hwb] at hvb
  have hrb : rb = Except.ok vb := hvb
  subst hrb
  have hp₂ := asyncguard_poll_done wb (countedOps (modeInScope s.mode m) wa) s₁ s₂ vb hwb
  rw [hm₁] at hp₂
  refine ⟨_, s₁, vb, hpoll₁, rfl, ?_, ?_, ?_⟩
  · intro hcond
    simp only [GuardFuture.poll, hp₂]
    rw [if_pos hcond]
  · intro hcond
    refine ⟨GuardFuture.mk m (some s.mode) (AsyncGuard.mk (addC (countedOps (modeInScope s.mode m) wa) (countedOps (modeInScope s.mode m) wb)) (Fut.done wb)), ?_⟩
    simp only [GuardFuture.poll, hp₂]
    rw [if_neg hcond]
  · simp only [GuardFuture.poll, hp₂]
    by_cases hcond : m ≠ AllocMode.Ignore ∧
        addC (countedOps (modeInScope s.mode m) wa)
          (countedOps (modeInScope s.mode m) wb) ≠ (0, 0, 0)
    · rw [if_pos hcond]
      rfl
    · rw [if_neg hcond]
      rfl

/-- Witness for C8 at concrete inputs: a computation whose first step
allocates once, driven to completion under `deny` semantics, fails with
counts `(1, 0, 0)`; abandonment after the first poll restores the mode. -/
theorem claim_C8_guard_future_judgment_witness :
    ∃ (g₁ : GuardFuture) (s₁ : TL) (vb : Nat),
      GuardFuture.poll
          (guard_future AllocMode.Count (Fut.pend (Work.act Act.alloc) (Fut.done (Work.ret 0))))
          ⟨(0, 0, 0), AllocMode.Count⟩ =
        (Except.ok (Poll.Pending, g₁), s₁)
      ∧ GuardFuture.dropped g₁ s₁ = { s₁ with mode := AllocMode.Count }
      ∧ (AllocMode.Count ≠ AllocMode.Ignore ∧
          addC (countedOps (modeInScope AllocMode.Count AllocMode.Count) (Work.act Act.alloc))
            (countedOps (modeInScope AllocMode.Count AllocMode.Count) (Work.ret 0)) ≠ (0, 0, 0) →
          (GuardFuture.poll g₁ s₁).1 = Except.error (Failure.allocViolation
            (addC (countedOps (modeInScope AllocMode.Count AllocMode.Count) (Work.act Act.alloc))
              (countedOps (modeInScope AllocMode.Count AllocMode.Count) (Work.ret 0))).1
            (addC (countedOps (modeInScope AllocMode.Count AllocMode.Count) (Work.act Act.alloc))
              (countedOps (modeInScope AllocMode.Count AllocMode.Count) (Work.ret 0))).2.1
            (addC (countedOps (modeInScope AllocMode.Count AllocMode.Count) (Work.act Act.alloc))
              (countedOps (modeInScope AllocMode.Count AllocMode.Count) (Work.ret 0))).2.2))
      ∧ (¬(AllocMode.Count ≠ AllocMode.Ignore ∧
            addC (countedOps (modeInScope AllocMode.Count AllocMode.Count) (Work.act Act.alloc))
              (countedOps (modeInScope AllocMode.Count AllocMode.Count) (Work.ret 0)) ≠ (0, 0, 0)) →
          ∃ g₂, (GuardFuture.poll g₁ s₁).1 = Except.ok (Poll.Ready vb, g₂))
      ∧ (GuardFuture.poll g₁ s₁).2.mode = AllocMode.Count :=
  claim_C8_guard_future_judgment AllocMode.Count (Work.act Act.alloc) (Work.ret 0)
    ⟨(0, 0, 0), AllocMode.Count⟩ (fun _ => ⟨0, rfl⟩) (fun _ => ⟨0, rfl⟩)

end AllocCounterModel
